import Mathlib

/-!
Shallow embedding of `PathTraverser` / `SwerveAutoCommand`
(src/commands/SwerveAutoCommand.py) and proofs about its traversal,
event-marker dispatch and stop-event dispatch behaviour.

Modelling conventions:
* Times are rationals; the wpilib timer is modelled as its current reading
  together with its running flag, frozen for the duration of one `sample()`
  call (all `timer.get()` reads inside one call return the same value).
* Callbacks are opaque side-effecting Python functions; the embedding
  identifies each one by a numeric id and records every invocation in an
  observable trace (`Call`), in invocation order.
* Marker and stop-event names are Python strings in the source, modelled by
  an abstract identifier type.
* `current_path.sample(time)` calls into pathplannerlib; its result is
  modelled abstractly as the pair (index of the sampled segment, query time).
-/

namespace Frc2023

/-- Marker / stop-event name (a Python string in the source). -/
abbrev EventName := Nat

/-- Opaque callback identifier; invocations are recorded in the trace. -/
abbrev Callback := Nat

/-- Opaque `PathPlannerTrajectory.StopEvent` payload handed to stop callbacks. -/
abbrev StopEvent := Nat

/-- `PathPlannerTrajectory.EventMarker`: trigger time relative to the segment
start (`event_marker.time`) and its list of names (`event_marker.names`). -/
structure EventMarker where
  time : ℚ
  names : List EventName
  deriving DecidableEq

/-- One path segment of the loaded path group: its total duration
(`getTotalTime()`), its markers (`getMarkers()`) and its end stop event
(`getEndStopEvent()`). -/
structure Segment where
  totalTime : ℚ
  markers : List EventMarker
  stopEvent : StopEvent
  deriving DecidableEq

/-- `wpilib.Timer` as used by `PathTraverser`: the current reading and whether
it is running.  `wpilib.Timer()` is stopped at 0, `start()` sets it running,
`reset()` returns the reading to 0. -/
structure Timer where
  val : ℚ
  running : Bool
  deriving DecidableEq

/-- Result of `self.current_path.sample(time)`, identified abstractly by the
index of the sampled segment and the query time. -/
structure PathSample where
  segIndex : ℕ
  time : ℚ
  deriving DecidableEq

/-- One observable callback invocation: an event-marker callback applied to
its marker, or a stop-event callback applied to the current stop event. -/
inductive Call where
  | marker (cb : Callback) (m : EventMarker)
  | stop (cb : Callback) (se : StopEvent)
  deriving DecidableEq

/-- Python `self.event_callbacks.get(name)` over the insertion-ordered dict,
modelled as an association list with unique keys. -/
def dictGet : List (EventName × Callback) → EventName → Option Callback
  | [], _ => none
  | (k, v) :: rest, key => if key = k then some v else dictGet rest key

/-- Python `del self.event_callbacks[name]`: remove the key's binding. -/
def dictDel : List (EventName × Callback) → EventName → List (EventName × Callback)
  | [], _ => []
  | (k, v) :: rest, key => if key = k then rest else (k, v) :: dictDel rest key

/-- Python `self.event_callbacks[name] = func`: overwrite in place when the
key is present, else append. -/
def dictSet : List (EventName × Callback) → EventName → Callback →
    List (EventName × Callback)
  | [], key, f => [(key, f)]
  | (k, v) :: rest, key, f =>
    if key = k then (key, f) :: rest else (k, v) :: dictSet rest key f

/-- State of one `PathTraverser`.  In this single-instance embedding the
class-level tables `event_callbacks`, `stop_event_callbacks` and
`event_markers` (lines 21-24 of the source) live as fields: for a single
instance, mutating the class attribute in place and mutating an instance
field are observationally identical.  The two-instance attribute semantics
is modelled separately by `World` below. -/
structure Traverser where
  path_group : List Segment
  current_path_index : ℕ
  stop_event : StopEvent
  timer : Timer
  paths_traversed : Bool
  total_time : ℚ
  iterations : ℕ
  event_markers : List EventMarker
  event_callbacks : List (EventName × Callback)
  stop_event_callbacks : List Callback
  deriving DecidableEq

/-- Default segment used with `List.getD`; every indexing in the source is in
range in reachable states (an out-of-range index raises in Python, see
`pathTraverserInit` for the one reachable case, the empty path group). -/
def noSegment : Segment :=
  { totalTime := 0, markers := [], stopEvent := 0 }

/-- `self.current_path`, maintained by the source as
`self.path_group[self.current_path_index]`. -/
def currentPath (s : Traverser) : Segment :=
  s.path_group.getD s.current_path_index noSegment

/-- `PathTraverser.reset` (lines 41-52): index 0, current path and its end
stop event reloaded, a fresh stopped `wpilib.Timer()`, `paths_traversed`
cleared, `total_time` and `iterations` zeroed.  It does not touch
`event_markers`, `event_callbacks` or `stop_event_callbacks`. -/
def reset (s : Traverser) : Traverser :=
  { s with
    current_path_index := 0
    stop_event := (s.path_group.getD 0 noSegment).stopEvent
    timer := { val := 0, running := false }
    paths_traversed := false
    total_time := 0
    iterations := 0 }

/-- `PathTraverser.start_timer` (lines 54-55): `self.timer.start()`. -/
def start_timer (s : Traverser) : Traverser :=
  { s with timer := { val := s.timer.val, running := true } }

/-- Wall-clock time passing by `d` seconds: a running timer's reading grows,
a stopped timer's does not. -/
def advanceTimer (t : Timer) (d : ℚ) : Timer :=
  if t.running then { val := t.val + d, running := t.running } else t

/-- Wall-clock time passing for a traverser between calls. -/
def advance (d : ℚ) (s : Traverser) : Traverser :=
  { s with timer := advanceTimer s.timer d }

/-- `PathTraverser.get_new_event_marker` (lines 60-67): if the pending list is
empty return `None`; otherwise examine only `event_markers[0]` and pop and
return it when its time is ≤ the timer reading, else return `None`. -/
def get_new_event_marker (s : Traverser) : Option EventMarker × Traverser :=
  match s.event_markers with
  | [] => (none, s)
  | m :: rest =>
    if m.time ≤ s.timer.val then (some m, { s with event_markers := rest })
    else (none, s)

/-- `PathTraverser.move_to_next_path` (lines 69-80): if no next segment
exists, set `paths_traversed` and return; otherwise advance the index, add
the current timer reading to `total_time`, reset and start the timer, and
load the new segment's markers and end stop event. -/
def move_to_next_path (s : Traverser) : Traverser :=
  if s.path_group.length ≤ s.current_path_index + 1 then
    { s with paths_traversed := true }
  else
    { s with
      current_path_index := s.current_path_index + 1
      total_time := s.total_time + s.timer.val
      timer := { val := 0, running := true }
      event_markers := (s.path_group.getD (s.current_path_index + 1) noSegment).markers
      stop_event := (s.path_group.getD (s.current_path_index + 1) noSegment).stopEvent }

/-- The marker-dispatch loop of `sample` (lines 91-98): for each name of the
dispatched marker, look up the callback; when bound, invoke it on the marker
and delete the binding.  Returns the updated callback dict and the calls in
invocation order. -/
def dispatchNames (m : EventMarker) :
    List EventName → List (EventName × Callback) →
    List (EventName × Callback) × List Call
  | [], d => (d, [])
  | n :: rest, d =>
    match dictGet d n with
    | none => dispatchNames m rest d
    | some cb =>
      let r := dispatchNames m rest (dictDel d n)
      (r.1, Call.marker cb m :: r.2)

/-- Python `list.remove(x)`: remove the first element equal to `x`. -/
def removeFirstCb : List Callback → Callback → List Callback
  | [], _ => []
  | c :: rest, x => if c = x then rest else c :: removeFirstCb rest x

/-- The stop-event loop of `sample` (lines 100-102), with Python's `for`
semantics over the live list: iterate by index, invoke the element at the
index, then `remove` it from the list being iterated.  Returns the callbacks
invoked (in order) and the final list.  The fuel equals the initial length,
which dominates the iteration count since each step removes one element. -/
def stopLoop (fuel : ℕ) (l : List Callback) (i : ℕ) :
    List Callback × List Callback :=
  match fuel with
  | 0 => ([], l)
  | fuel + 1 =>
    match l[i]? with
    | none => ([], l)
    | some cb =>
      let r := stopLoop fuel (removeFirstCb l cb) (i + 1)
      (cb :: r.1, r.2)

/-- Lines 90-98 of `sample`: fetch at most one due marker via
`get_new_event_marker` and, when one is due, run the name-dispatch loop. -/
def markerStep (s : Traverser) : Traverser × List Call :=
  match get_new_event_marker s with
  | (none, s1) => (s1, [])
  | (some m, s1) =>
    let r := dispatchNames m m.names s1.event_callbacks
    ({ s1 with event_callbacks := r.1 }, r.2)

/-- Lines 99-103 of `sample`: when `time > total_time`, run the stop-event
loop (each callback receives the current `self.stop_event`) and then
`move_to_next_path`. -/
def stopStep (totalTime time : ℚ) (s : Traverser) : Traverser × List Call :=
  if totalTime < time then
    let r := stopLoop s.stop_event_callbacks.length s.stop_event_callbacks 0
    (move_to_next_path { s with stop_event_callbacks := r.2 },
      r.1.map fun cb => Call.stop cb s.stop_event)
  else (s, [])

/-- Body of `sample` for a non-exhausted traverser (lines 88-107):
`total_time := current_path.getTotalTime()` and `time := timer.get()` are
read first, then the marker step, then the stop/transition step, then
`iterations += 1`, and finally `current_path.sample(time)` is returned —
the possibly advanced current path sampled at the pre-transition time. -/
def sampleActive (s : Traverser) : Traverser × Option PathSample × List Call :=
  let totalTime := (currentPath s).totalTime
  let time := s.timer.val
  let r1 := markerStep s
  let r2 := stopStep totalTime time r1.1
  let s4 := { r2.1 with iterations := r2.1.iterations + 1 }
  (s4, some { segIndex := s4.current_path_index, time := time }, r1.2 ++ r2.2)

/-- `PathTraverser.sample` (lines 84-107): returns `None` immediately when
`paths_traversed`, else runs the active body.  The second component is the
returned value, the third the trace of callback invocations made by the
call. -/
def sample (s : Traverser) : Traverser × Option PathSample × List Call :=
  if s.paths_traversed then (s, none, []) else sampleActive s

/-- `PathTraverser.on` (lines 109-112): `self.event_callbacks[name] = func`. -/
def on_event (s : Traverser) (name : EventName) (cb : Callback) : Traverser :=
  { s with event_callbacks := dictSet s.event_callbacks name cb }

/-- `PathTraverser.on_stop` (lines 114-115): append to `stop_event_callbacks`. -/
def on_stop (s : Traverser) (cb : Callback) : Traverser :=
  { s with stop_event_callbacks := s.stop_event_callbacks ++ [cb] }

/-- One control tick as driven by `SwerveAutoCommand.execute` (lines
198-200): wall-clock time `d` passes, then `start_timer()`, then `sample()`. -/
def tick (d : ℚ) (s : Traverser) : Traverser × Option PathSample × List Call :=
  sample (start_timer (advance d s))

/-- A tick sequence; collects each tick's returned value and dispatched
callbacks — the observable trace of the run. -/
def runTicks : List ℚ → Traverser → Traverser × List (Option PathSample × List Call)
  | [], s => (s, [])
  | d :: ds, s =>
    let r := tick d s
    let rest := runTicks ds r.1
    (rest.1, (r.2.1, r.2.2) :: rest.2)

/-- Successive raw `sample()` calls (no time advance needed: the exhaustion
check precedes every timer read); collects the returned values. -/
def sampleOutputs : ℕ → Traverser → List (Option PathSample)
  | 0, _ => []
  | n + 1, s => (sample s).2.1 :: sampleOutputs n (sample s).1

/-- Error raised by `PathTraverser.__init__` on an empty path group:
`path_group[0]` (line 34) raises `IndexError` before any tick runs. -/
inductive InitErr where
  | indexError
  deriving DecidableEq

/-- `PathTraverser.__init__` (lines 26-39) after `loadPathGroup` returned
`path_group`: indexing `path_group[0]` raises on an empty group; otherwise
the fields are set up and `reset()` is called.  `ec`, `sc`, `em` are the
class-level tables the new instance starts from (lines 21-24), which the
constructor does not touch. -/
def pathTraverserInit (path_group : List Segment)
    (ec : List (EventName × Callback)) (sc : List Callback)
    (em : List EventMarker) : Except InitErr Traverser :=
  match path_group with
  | [] => Except.error InitErr.indexError
  | p :: rest =>
    Except.ok (reset
      { path_group := p :: rest
        current_path_index := 0
        stop_event := p.stopEvent
        timer := { val := 0, running := false }
        paths_traversed := false
        total_time := 0
        iterations := 0
        event_markers := em
        event_callbacks := ec
        stop_event_callbacks := sc })

/-!
Two-instance model of Python's class/instance attribute semantics for the
class-level tables of `PathTraverser` (lines 21-24).  The source contains no
attribute assignment to `event_callbacks` or `stop_event_callbacks` — only
in-place mutation (`d[name] = f`, `del d[name]`, `.append`, `.remove`) — so
every instance always resolves those names to the class attributes, stored
here in `ClassAttrs`.  `event_markers`, by contrast, IS attribute-assigned in
`move_to_next_path` (line 79), which creates an instance attribute shadowing
the class one; instances therefore carry an optional shadow for it, and
`get_new_event_marker`'s `pop(0)` mutates the list object the lookup found.
-/

/-- The class attributes of `PathTraverser` (lines 21-24), shared by all
instances. -/
structure ClassAttrs where
  event_callbacks : List (EventName × Callback)
  stop_event_callbacks : List Callback
  event_markers : List EventMarker
  deriving DecidableEq

/-- Instance-level state of one `PathTraverser`.  `markersAttr` is the
optional instance attribute `event_markers` (created only by
`move_to_next_path`); `none` means lookups fall through to the class
attribute. -/
structure PyInstance where
  path_group : List Segment
  current_path_index : ℕ
  stop_event : StopEvent
  timer : Timer
  paths_traversed : Bool
  total_time : ℚ
  iterations : ℕ
  markersAttr : Option (List EventMarker)
  deriving DecidableEq

/-- The whole program state: the shared class attributes and the live
instances. -/
structure World where
  cls : ClassAttrs
  insts : List PyInstance
  deriving DecidableEq

/-- Placeholder instance for `List.getD`; all theorems use in-range indices. -/
def noInstance : PyInstance :=
  { path_group := [], current_path_index := 0, stop_event := 0
    timer := { val := 0, running := false }, paths_traversed := false
    total_time := 0, iterations := 0, markersAttr := none }

/-- Attribute lookup of `self.event_markers` on instance `i`: the instance
attribute when set, else the class attribute. -/
def readMarkers (w : World) (i : ℕ) : List EventMarker :=
  ((w.insts.getD i noInstance).markersAttr).getD w.cls.event_markers

/-- In-place mutation (`pop(0)`) of the list object `self.event_markers`
resolves to on instance `i`: the instance's own list when the shadow exists,
else the shared class list. -/
def writeMarkers (w : World) (i : ℕ) (l : List EventMarker) : World :=
  match (w.insts.getD i noInstance).markersAttr with
  | some _ =>
    let inst1 := { (w.insts.getD i noInstance) with markersAttr := some l }
    { w with insts := w.insts.set i inst1 }
  | none => { w with cls := { w.cls with event_markers := l } }

/-- Attribute lookup of `self.event_callbacks`: always the class dict, since
the source never attribute-assigns it. -/
def readCallbacks (w : World) (_i : ℕ) : List (EventName × Callback) :=
  w.cls.event_callbacks

/-- `PathTraverser.on` called on instance `i`:
`self.event_callbacks[name] = func` mutates the shared class dict in place. -/
def world_on_event (w : World) (_i : ℕ) (name : EventName) (cb : Callback) :
    World :=
  { w with cls :=
      { w.cls with event_callbacks := dictSet w.cls.event_callbacks name cb } }

/-- `PathTraverser.on_stop` called on instance `i`: `.append` mutates the
shared class list in place. -/
def world_on_stop (w : World) (_i : ℕ) (cb : Callback) : World :=
  { w with cls :=
      { w.cls with
        stop_event_callbacks := w.cls.stop_event_callbacks ++ [cb] } }

/-- `PathTraverser.reset` on instance `i`: instance fields only; the class
tables and the marker shadow are untouched (the source's `reset` never
mentions `event_markers`, `event_callbacks` or `stop_event_callbacks`). -/
def world_reset (w : World) (i : ℕ) : World :=
  let inst := w.insts.getD i noInstance
  let inst1 :=
    { inst with
      current_path_index := 0
      stop_event := (inst.path_group.getD 0 noSegment).stopEvent
      timer := { val := 0, running := false }
      paths_traversed := false
      total_time := 0
      iterations := 0 }
  { w with insts := w.insts.set i inst1 }

/-- Wall-clock time passing for instance `i`'s timer. -/
def worldAdvance (w : World) (i : ℕ) (d : ℚ) : World :=
  let inst := w.insts.getD i noInstance
  let inst1 := { inst with timer := advanceTimer inst.timer d }
  { w with insts := w.insts.set i inst1 }

/-- `move_to_next_path` on instance `i`.  Setting `self.event_markers` here
is attribute assignment: it creates/overwrites the instance attribute and
leaves the class list alone. -/
def world_move_to_next_path (w : World) (i : ℕ) : World :=
  let inst := w.insts.getD i noInstance
  if inst.path_group.length ≤ inst.current_path_index + 1 then
    { w with insts := w.insts.set i { inst with paths_traversed := true } }
  else
    let inst1 :=
      { inst with
        current_path_index := inst.current_path_index + 1
        total_time := inst.total_time + inst.timer.val
        timer := { val := 0, running := true }
        markersAttr :=
          some ((inst.path_group.getD (inst.current_path_index + 1)
            noSegment).markers)
        stop_event :=
          (inst.path_group.getD (inst.current_path_index + 1)
            noSegment).stopEvent }
    { w with insts := w.insts.set i inst1 }

/-- `get_new_event_marker` on instance `i`: examines only the head of the
list `self.event_markers` resolves to, popping it in place when due. -/
def world_get_marker (w : World) (i : ℕ) : Option EventMarker × World :=
  match readMarkers w i with
  | [] => (none, w)
  | m :: rest =>
    if m.time ≤ (w.insts.getD i noInstance).timer.val then
      (some m, writeMarkers w i rest)
    else (none, w)

/-- `sample` on instance `i`, mirroring `sample`/`sampleActive` above but
with attribute-resolved tables: the marker dispatch reads and deletes in the
shared class dict, the stop loop iterates and removes in the shared class
list, and the per-instance fields evolve as in the single-instance model. -/
def world_sample (w : World) (i : ℕ) : World × Option PathSample × List Call :=
  let inst := w.insts.getD i noInstance
  if inst.paths_traversed then (w, none, [])
  else
    let totalTime := (inst.path_group.getD inst.current_path_index noSegment).totalTime
    let time := inst.timer.val
    let r1 := world_get_marker w i
    let w1 := r1.2
    let rd :=
      match r1.1 with
      | none => (w1.cls.event_callbacks, ([] : List Call))
      | some m => dispatchNames m m.names w1.cls.event_callbacks
    let w2 := { w1 with cls := { w1.cls with event_callbacks := rd.1 } }
    let r3 :=
      if totalTime < time then
        let rs := stopLoop w2.cls.stop_event_callbacks.length
          w2.cls.stop_event_callbacks 0
        let w2a :=
          { w2 with cls := { w2.cls with stop_event_callbacks := rs.2 } }
        (world_move_to_next_path w2a i,
          rs.1.map fun cb => Call.stop cb (w2a.insts.getD i noInstance).stop_event)
      else (w2, ([] : List Call))
    let w3 := r3.1
    let instF := w3.insts.getD i noInstance
    let instF1 := { instF with iterations := instF.iterations + 1 }
    let w4 := { w3 with insts := w3.insts.set i instF1 }
    (w4, some { segIndex := (w4.insts.getD i noInstance).current_path_index,
                time := time }, rd.2 ++ r3.2)

/-! Concrete traversal states used by the counterexamples and witnesses. -/

/-- Marker at time 1 carrying name 0. -/
def mA : EventMarker := { time := 1, names := [0] }

/-- Marker at time 1 carrying name 1. -/
def mB : EventMarker := { time := 1, names := [1] }

/-- Traverser mid-segment with two pending markers both due at time 1, the
clock at 2, and a callback bound to each marker's name. -/
def c1s : Traverser :=
  { path_group := [{ totalTime := 5, markers := [mA, mB], stopEvent := 10 }]
    current_path_index := 0, stop_event := 10
    timer := { val := 2, running := true }
    paths_traversed := false, total_time := 0, iterations := 0
    event_markers := [mA, mB]
    event_callbacks := [(0, 20), (1, 21)]
    stop_event_callbacks := [] }

/-- Marker at time 1 carrying names 0 and 1. -/
def mAB : EventMarker := { time := 1, names := [0, 1] }

/-- Traverser mid-segment whose head marker is due, with a callback bound to
the marker's first name only. -/
def c1ws : Traverser :=
  { path_group := [{ totalTime := 5, markers := [mAB], stopEvent := 10 }]
    current_path_index := 0, stop_event := 10
    timer := { val := 2, running := true }
    paths_traversed := false, total_time := 0, iterations := 0
    event_markers := [mAB]
    event_callbacks := [(0, 5)]
    stop_event_callbacks := [] }

/-- Traverser at a boundary crossing (clock 3 on a 2-second segment) with
two stop-event callbacks registered, ids 3 then 4. -/
def c2s : Traverser :=
  { path_group := [{ totalTime := 2, markers := [], stopEvent := 10 },
                   { totalTime := 5, markers := [], stopEvent := 11 }]
    current_path_index := 0, stop_event := 10
    timer := { val := 3, running := true }
    paths_traversed := false, total_time := 0, iterations := 0
    event_markers := [], event_callbacks := []
    stop_event_callbacks := [3, 4] }

/-- Traverser past the duration of its only segment (clock 3 on a
2-second final segment). -/
def c3s : Traverser :=
  { path_group := [{ totalTime := 2, markers := [], stopEvent := 10 }]
    current_path_index := 0, stop_event := 10
    timer := { val := 3, running := true }
    paths_traversed := false, total_time := 0, iterations := 0
    event_markers := [], event_callbacks := [], stop_event_callbacks := [] }

/-- Traverser crossing from a 2-second segment into a following one with the
clock at 3. -/
def c4s : Traverser :=
  { path_group := [{ totalTime := 2, markers := [], stopEvent := 10 },
                   { totalTime := 5, markers := [], stopEvent := 11 }]
    current_path_index := 0, stop_event := 10
    timer := { val := 3, running := true }
    paths_traversed := false, total_time := 0, iterations := 0
    event_markers := [], event_callbacks := [], stop_event_callbacks := [] }

/-- An exhausted, used-up traverser over a one-segment group whose segment 0
carries a marker; the pending marker list is empty. -/
def c5s : Traverser :=
  { path_group := [{ totalTime := 2, markers := [mA], stopEvent := 10 }]
    current_path_index := 0, stop_event := 10
    timer := { val := 3, running := true }
    paths_traversed := true, total_time := 9, iterations := 4
    event_markers := [], event_callbacks := [(3, 30)]
    stop_event_callbacks := [8] }

/-- An exhausted traverser. -/
def c7s : Traverser :=
  { path_group := [{ totalTime := 2, markers := [], stopEvent := 10 }]
    current_path_index := 0, stop_event := 10
    timer := { val := 5, running := true }
    paths_traversed := true, total_time := 2, iterations := 3
    event_markers := [], event_callbacks := [], stop_event_callbacks := [] }

/-- Traverser mid-segment with one due pending marker bound to callback 7. -/
def c10s : Traverser :=
  { path_group := [{ totalTime := 5, markers := [mA], stopEvent := 10 }]
    current_path_index := 0, stop_event := 10
    timer := { val := 2, running := true }
    paths_traversed := false, total_time := 0, iterations := 0
    event_markers := [mA], event_callbacks := [(0, 7)]
    stop_event_callbacks := [] }

/-- Marker at time 0 carrying name 0 (due as soon as its segment starts). -/
def mZ : EventMarker := { time := 0, names := [0] }

/-- Two-segment group whose second segment carries marker `mZ`. -/
def c6group : List Segment :=
  [{ totalTime := 2, markers := [], stopEvent := 10 },
   { totalTime := 5, markers := [mZ], stopEvent := 11 }]

/-- An instance over `c6group` still in segment 0 with its clock at 3, past
the segment's 2-second duration. -/
def c6inst : PyInstance :=
  { path_group := c6group, current_path_index := 0, stop_event := 10
    timer := { val := 3, running := true }, paths_traversed := false
    total_time := 0, iterations := 0, markersAttr := none }

/-- World with two instances over `c6group` and a callback bound to name 0
in the shared class dict; the class marker list is the initial `[]`. -/
def c6w0 : World :=
  { cls := { event_callbacks := [(0, 7)], stop_event_callbacks := []
             event_markers := [] }
    insts := [c6inst, c6inst] }

/-- `c6w0` after both instances cross into segment 1 (their clocks read 3 on
the 2-second segment 0): each `sample` call triggers `move_to_next_path`,
which attribute-assigns each instance its own copy of segment 1's marker
list and resets its clock to 0. -/
def c6w2 : World :=
  (world_sample (world_sample c6w0 0).1 1).1

/-- The result of instance 0 sampling again at the start of segment 1: its
due marker `mZ` is consumed and callback 7 fires. -/
def c6r : World × Option PathSample × List Call :=
  world_sample c6w2 0

/-! Helper lemmas about the dict operations and the dispatch loops. -/

theorem dictGet_not_mem {d : List (EventName × Callback)} {k : EventName}
    (h : k ∉ d.map Prod.fst) : dictGet d k = none := by
  induction d with
  | nil => rfl
  | cons p rest ih =>
    simp only [List.map_cons, List.mem_cons] at h
    push_neg at h
    simp [dictGet, h.1, ih h.2]

theorem dictGet_dictDel_ne {d : List (EventName × Callback)} {k n : EventName}
    (h : n ≠ k) : dictGet (dictDel d k) n = dictGet d n := by
  induction d with
  | nil => rfl
  | cons p rest ih =>
    obtain ⟨k0, v0⟩ := p
    by_cases hk : k = k0
    · have hn : n ≠ k0 := fun hc => h (hc.trans hk.symm)
      simp [dictDel, hk, dictGet, hn]
    · simp only [dictDel, hk, if_false]
      by_cases hn : n = k0 <;> simp [dictGet, hn, ih]

theorem keys_dictDel_sublist (d : List (EventName × Callback)) (k : EventName) :
    ((dictDel d k).map Prod.fst).Sublist (d.map Prod.fst) := by
  induction d with
  | nil => simp [dictDel]
  | cons p rest ih =>
    by_cases hk : k = p.1
    · simp only [dictDel, hk, if_true, List.map_cons]
      exact List.sublist_cons_self _ _
    · simpa [dictDel, hk] using ih.cons₂ p.1

theorem nodup_keys_dictDel {d : List (EventName × Callback)} (k : EventName)
    (h : (d.map Prod.fst).Nodup) : ((dictDel d k).map Prod.fst).Nodup :=
  (keys_dictDel_sublist d k).nodup h

theorem dictGet_dictDel_self {d : List (EventName × Callback)} {k : EventName}
    (h : (d.map Prod.fst).Nodup) : dictGet (dictDel d k) k = none := by
  induction d with
  | nil => rfl
  | cons p rest ih =>
    simp only [List.map_cons, List.nodup_cons] at h
    by_cases hk : k = p.1
    · simp only [dictDel, hk, if_true]
      exact dictGet_not_mem (hk ▸ h.1)
    · simp [dictDel, hk, dictGet, ih h.2]

theorem dictGet_dictDel_none {d : List (EventName × Callback)}
    {k n : EventName} (h : dictGet d n = none) :
    dictGet (dictDel d k) n = none := by
  by_cases hk : n = k
  · subst hk
    induction d with
    | nil => rfl
    | cons p rest ih =>
      by_cases hp : n = p.1
      · simp [dictGet, hp] at h
      · simp only [dictGet, hp, if_false] at h
        simp [dictDel, fun hc : n = p.1 => hp hc, dictGet, hp, ih h,
          Ne.symm (fun hc : n = p.1 => hp hc)]
  · exact (dictGet_dictDel_ne hk).trans h

theorem dispatchNames_dict_none (m : EventMarker)
    (names : List EventName) {d : List (EventName × Callback)}
    {n : EventName} (h : dictGet d n = none) :
    dictGet (dispatchNames m names d).1 n = none := by
  induction names generalizing d with
  | nil => exact h
  | cons n0 rest ih =>
    simp only [dispatchNames]
    cases hg : dictGet d n0 with
    | none => exact ih h
    | some cb => exact ih (dictGet_dictDel_none h)

theorem dispatchNames_get_not_mem (m : EventMarker)
    {names : List EventName} {d : List (EventName × Callback)}
    {n : EventName} (h : n ∉ names) :
    dictGet (dispatchNames m names d).1 n = dictGet d n := by
  induction names generalizing d with
  | nil => rfl
  | cons n0 rest ih =>
    simp only [List.mem_cons] at h
    push_neg at h
    simp only [dispatchNames]
    cases hg : dictGet d n0 with
    | none => exact ih h.2
    | some cb => exact (ih h.2).trans (dictGet_dictDel_ne h.1)

theorem dispatchNames_get_mem (m : EventMarker)
    {names : List EventName} {d : List (EventName × Callback)}
    (hN : names.Nodup) (hK : (d.map Prod.fst).Nodup) :
    ∀ n ∈ names, dictGet (dispatchNames m names d).1 n = none := by
  induction names generalizing d with
  | nil => intro n hn; cases hn
  | cons n0 rest ih =>
    simp only [List.nodup_cons] at hN
    intro n hn
    simp only [dispatchNames]
    rcases List.mem_cons.mp hn with hn0 | hr
    · subst hn0
      cases hg : dictGet d n with
      | none => exact dispatchNames_dict_none m rest hg
      | some cb =>
        exact dispatchNames_dict_none m rest (dictGet_dictDel_self hK)
    · cases hg : dictGet d n0 with
      | none => exact ih hN.2 hK n hr
      | some cb => exact ih hN.2 (nodup_keys_dictDel n0 hK) n hr

theorem filterMap_congr_mem {α β : Type} {f g : α → Option β} :
    ∀ {l : List α}, (∀ a ∈ l, f a = g a) → l.filterMap f = l.filterMap g
  | [], _ => rfl
  | a :: l, h => by
    simp only [List.filterMap_cons, h a (List.mem_cons_self a l)]
    rw [filterMap_congr_mem fun x hx => h x (List.mem_cons_of_mem a hx)]

theorem dispatchNames_calls (m : EventMarker) {names : List EventName}
    (d : List (EventName × Callback)) (hN : names.Nodup) :
    (dispatchNames m names d).2 =
      names.filterMap fun n =>
        (dictGet d n).map fun cb => Call.marker cb m := by
  induction names generalizing d with
  | nil => rfl
  | cons n0 rest ih =>
    simp only [List.nodup_cons] at hN
    simp only [dispatchNames, List.filterMap_cons]
    cases hg : dictGet d n0 with
    | none => simpa using ih d hN.2
    | some cb =>
      simp only [Option.map_some']
      rw [ih (dictDel d n0) hN.2]
      rw [filterMap_congr_mem fun n hn => by
        rw [dictGet_dictDel_ne fun hc : n = n0 => hN.1 (hc ▸ hn)]]

theorem dispatchNames_calls_marker (m : EventMarker)
    {names : List EventName} {d : List (EventName × Callback)} {c : Call}
    (h : c ∈ (dispatchNames m names d).2) : ∃ cb, c = Call.marker cb m := by
  induction names generalizing d with
  | nil => cases h
  | cons n0 rest ih =>
    simp only [dispatchNames] at h
    cases hg : dictGet d n0 with
    | none =>
      rw [hg] at h
      exact ih h
    | some cb =>
      rw [hg] at h
      rcases List.mem_cons.mp h with hc | hr
      · exact ⟨cb, hc⟩
      · exact ih hr

/-! Field-preservation lemmas for the marker step: lines 90-98 only pop the
pending list and mutate the callback dict. -/

theorem markerStep_path_group (s : Traverser) :
    (markerStep s).1.path_group = s.path_group := by
  unfold markerStep get_new_event_marker
  cases s.event_markers with
  | nil => rfl
  | cons m rest => by_cases h : m.time ≤ s.timer.val <;> simp [h]

theorem markerStep_index (s : Traverser) :
    (markerStep s).1.current_path_index = s.current_path_index := by
  unfold markerStep get_new_event_marker
  cases s.event_markers with
  | nil => rfl
  | cons m rest => by_cases h : m.time ≤ s.timer.val <;> simp [h]

theorem markerStep_timer (s : Traverser) : (markerStep s).1.timer = s.timer := by
  unfold markerStep get_new_event_marker
  cases s.event_markers with
  | nil => rfl
  | cons m rest => by_cases h : m.time ≤ s.timer.val <;> simp [h]

theorem markerStep_traversed (s : Traverser) :
    (markerStep s).1.paths_traversed = s.paths_traversed := by
  unfold markerStep get_new_event_marker
  cases s.event_markers with
  | nil => rfl
  | cons m rest => by_cases h : m.time ≤ s.timer.val <;> simp [h]

theorem markerStep_total_time (s : Traverser) :
    (markerStep s).1.total_time = s.total_time := by
  unfold markerStep get_new_event_marker
  cases s.event_markers with
  | nil => rfl
  | cons m rest => by_cases h : m.time ≤ s.timer.val <;> simp [h]

theorem markerStep_stop_event (s : Traverser) :
    (markerStep s).1.stop_event = s.stop_event := by
  unfold markerStep get_new_event_marker
  cases s.event_markers with
  | nil => rfl
  | cons m rest => by_cases h : m.time ≤ s.timer.val <;> simp [h]

theorem markerStep_stops (s : Traverser) :
    (markerStep s).1.stop_event_callbacks = s.stop_event_callbacks := by
  unfold markerStep get_new_event_marker
  cases s.event_markers with
  | nil => rfl
  | cons m rest => by_cases h : m.time ≤ s.timer.val <;> simp [h]

/-- Line 85-86: an exhausted traverser's `sample` returns `None` at once,
changes nothing and invokes nothing. -/
theorem sample_of_traversed {s : Traverser} (h : s.paths_traversed = true) :
    sample s = (s, none, []) := by
  simp [sample, h]

/-- `reset` is idempotent on the state: all six assigned fields get values
depending only on `path_group`, which `reset` preserves. -/
theorem reset_reset (s : Traverser) : reset (reset s) = reset s := rfl

/-- Characterization of one `sample()` call whose head marker is due and
which does not cross the segment boundary. -/
theorem sample_marker_no_cross {s : Traverser} {m : EventMarker}
    {rest : List EventMarker} (hpt : s.paths_traversed = false)
    (hm : s.event_markers = m :: rest) (hdue : m.time ≤ s.timer.val)
    (hno : ¬ (currentPath s).totalTime < s.timer.val) :
    sample s =
      ({ s with
          event_markers := rest
          event_callbacks := (dispatchNames m m.names s.event_callbacks).1
          iterations := s.iterations + 1 },
        some { segIndex := s.current_path_index, time := s.timer.val },
        (dispatchNames m m.names s.event_callbacks).2) := by
  simp [sample, hpt, sampleActive, markerStep, get_new_event_marker, hm, hdue,
    stopStep, hno]

/-- C1 (amended): in one non-exhausted, non-crossing `sample()` call whose
head pending marker `m` is due (`m.time ≤ t`), exactly that one marker is
dispatched: it is removed from the pending set, the dispatched calls are
precisely the callbacks bound to `m`'s names in name order (each invoked
exactly once), those bindings are consumed, and all other bindings are
untouched.  Pending markers beyond the head — even ones whose trigger time
is ≤ `t` — are not examined by this call. -/
theorem marker_dispatch_head_only (s : Traverser) (m : EventMarker)
    (rest : List EventMarker) (hpt : s.paths_traversed = false)
    (hm : s.event_markers = m :: rest) (hdue : m.time ≤ s.timer.val)
    (hno : s.timer.val ≤ (currentPath s).totalTime) (hN : m.names.Nodup)
    (hK : (s.event_callbacks.map Prod.fst).Nodup) :
    (sample s).1.event_markers = rest ∧
    (sample s).2.2 = m.names.filterMap
      (fun n => (dictGet s.event_callbacks n).map fun cb => Call.marker cb m) ∧
    (∀ n ∈ m.names, dictGet (sample s).1.event_callbacks n = none) ∧
    (∀ n, n ∉ m.names →
      dictGet (sample s).1.event_callbacks n = dictGet s.event_callbacks n) := by
  rw [sample_marker_no_cross hpt hm hdue (not_lt.mpr hno)]
  refine ⟨rfl, dispatchNames_calls m s.event_callbacks hN, ?_, ?_⟩
  · exact fun n hn => dispatchNames_get_mem m hN hK n hn
  · exact fun n hn => dispatchNames_get_not_mem m hn

/-- Witness for `marker_dispatch_head_only` at the concrete state `c1ws`. -/
theorem marker_dispatch_head_only_witness :
    mAB.time ≤ c1ws.timer.val ∧
    (sample c1ws).1.event_markers = [] ∧
    (sample c1ws).2.2 = [Call.marker 5 mAB] := by
  have h := marker_dispatch_head_only c1ws mAB [] rfl rfl (by decide)
    (by decide) (by decide) (by decide)
  exact ⟨by decide, h.1, h.2.1.trans (by decide)⟩

/-- C1 (counterexample to the claim as stated): at `c1s` the clock reads 2
and BOTH pending markers `mA`, `mB` have trigger time 1 ≤ 2 with callbacks
20, 21 bound to their names, yet the `sample()` call dispatches only the
head marker `mA`: callback 21 is never invoked in this call and `mB` stays
pending — not every due marker is processed during the call. -/
theorem marker_dispatch_not_all_due :
    mB.time ≤ c1s.timer.val ∧
    dictGet c1s.event_callbacks 1 = some 21 ∧
    (sample c1s).2.2 = [Call.marker 20 mA] ∧
    (sample c1s).1.event_markers = [mB] ∧
    Call.marker 21 mB ∉ (sample c1s).2.2 := by decide

/-- C2: the stop-event loop removes from the list it is iterating, so it
skips every second callback.  At `c2s` the clock (3) exceeds the segment
duration (2) and callbacks 3 and 4 are both registered, yet the boundary
crossing invokes only callback 3 and leaves callback 4 registered — the
code does not invoke every still-registered stop-event callback. -/
theorem stop_dispatch_skips_second :
    c2s.stop_event_callbacks = [3, 4] ∧
    (currentPath c2s).totalTime < c2s.timer.val ∧
    (sample c2s).2.2 = [Call.stop 3 10] ∧
    Call.stop 4 10 ∉ (sample c2s).2.2 ∧
    (sample c2s).1.stop_event_callbacks = [4] := by decide

/-- C3 (counterexample to the claim as stated): at `c3s` the clock (3)
exceeds the only segment's duration (2) and no further segment exists; the
`sample()` call does set the exhausted flag, but it returns the current
segment sampled at the clock reading — not the `None` sentinel. -/
theorem final_crossing_returns_state :
    c3s.paths_traversed = false ∧
    (currentPath c3s).totalTime < c3s.timer.val ∧
    c3s.path_group.length ≤ c3s.current_path_index + 1 ∧
    (sample c3s).1.paths_traversed = true ∧
    (sample c3s).2.1 = some { segIndex := 0, time := 3 } ∧
    (sample c3s).2.1 ≠ none := by decide

/-- C3 (amended): when `sample()` finds the elapsed time past the final
segment's duration, that same call sets the exhausted flag but still
returns the (unchanged) current segment sampled at the elapsed time; the
`None` sentinel is returned starting from the next call. -/
theorem final_crossing_sets_flag (s : Traverser)
    (hpt : s.paths_traversed = false)
    (hcross : (currentPath s).totalTime < s.timer.val)
    (hlast : s.path_group.length ≤ s.current_path_index + 1) :
    (sample s).1.paths_traversed = true ∧
    (sample s).2.1 =
      some { segIndex := s.current_path_index, time := s.timer.val } ∧
    (sample (sample s).1).2.1 = none := by
  have h1 : (sample s).1.paths_traversed = true := by
    simp [sample, hpt, sampleActive, stopStep, hcross, move_to_next_path,
      markerStep_path_group, markerStep_index, hlast]
  refine ⟨h1, ?_, by rw [sample_of_traversed h1]⟩
  simp [sample, hpt, sampleActive, stopStep, hcross, move_to_next_path,
    markerStep_path_group, markerStep_index, hlast]

/-- Witness for `final_crossing_sets_flag` at the concrete state `c3s`. -/
theorem final_crossing_sets_flag_witness :
    (currentPath c3s).totalTime < c3s.timer.val ∧
    (sample c3s).1.paths_traversed = true ∧
    (sample (sample c3s).1).2.1 = none := by
  have h := final_crossing_sets_flag c3s rfl (by decide) (by decide)
  exact ⟨by decide, h.1, h.2.2⟩

/-- C4 (counterexample to the claim as stated): at `c4s` the completed
segment's duration is 2 but the transition happens at clock reading 3, and
the code adds the clock reading: cumulative elapsed time becomes 3, not
0 + 2 as the claim requires. -/
theorem total_time_adds_reading_not_duration :
    c4s.total_time = 0 ∧
    (currentPath c4s).totalTime = 2 ∧
    (sample c4s).1.total_time = 3 ∧
    (sample c4s).1.total_time ≠ c4s.total_time + (currentPath c4s).totalTime := by
  have h3 : (sample c4s).1.total_time = 3 := by
    norm_num [sample, sampleActive, markerStep, stopStep, get_new_event_marker,
      move_to_next_path, currentPath, stopLoop, c4s, noSegment]
  refine ⟨rfl, by decide, h3, ?_⟩
  rw [h3]
  norm_num [c4s, currentPath, noSegment]

/-- C4 (amended): on a non-final segment transition the code adds the clock
reading of the triggering tick to cumulative elapsed time — an amount
strictly greater than the completed segment's duration, since the
transition requires the reading to exceed it. -/
theorem transition_adds_timer_reading (s : Traverser)
    (hpt : s.paths_traversed = false)
    (hcross : (currentPath s).totalTime < s.timer.val)
    (hnext : s.current_path_index + 1 < s.path_group.length) :
    (sample s).1.total_time = s.total_time + s.timer.val ∧
    s.total_time + (currentPath s).totalTime < s.total_time + s.timer.val := by
  constructor
  · simp [sample, hpt, sampleActive, stopStep, hcross, move_to_next_path,
      markerStep_path_group, markerStep_index, markerStep_timer,
      markerStep_total_time, Nat.not_le.mpr hnext]
  · exact add_lt_add_left hcross s.total_time

/-- Witness for `transition_adds_timer_reading` at the concrete state `c4s`. -/
theorem transition_adds_timer_reading_witness :
    (currentPath c4s).totalTime < c4s.timer.val ∧
    (sample c4s).1.total_time = c4s.total_time + c4s.timer.val :=
  ⟨by decide, (transition_adds_timer_reading c4s rfl (by decide) (by decide)).1⟩

/-- C5 (counterexample to the claim as stated): `reset()` neither reloads
segment 0's markers nor starts the clock.  At `c5s`, segment 0 carries
marker `mA` but the pending list after `reset()` is still the old (empty)
one, and the fresh `wpilib.Timer()` is not running. -/
theorem reset_leaves_markers_and_clock :
    (currentPath (reset c5s)).markers = [mA] ∧
    (reset c5s).event_markers = [] ∧
    (reset c5s).event_markers ≠ (currentPath (reset c5s)).markers ∧
    (reset c5s).timer.running = false := by decide

/-- C5 (amended): after `reset()` the segment index is 0, the fresh timer
reads 0 and is stopped (started only by `start_timer`), the exhausted flag
and cumulative time are cleared, the stop event is segment 0's; the pending
marker list and both callback tables are left exactly as they were — they
are not reloaded or cleared. -/
theorem reset_state (s : Traverser) (_h : s.path_group ≠ []) :
    (reset s).current_path_index = 0 ∧
    (reset s).timer = { val := 0, running := false } ∧
    (reset s).paths_traversed = false ∧
    (reset s).total_time = 0 ∧
    (reset s).stop_event = (s.path_group.getD 0 noSegment).stopEvent ∧
    (reset s).event_markers = s.event_markers ∧
    (reset s).event_callbacks = s.event_callbacks ∧
    (reset s).stop_event_callbacks = s.stop_event_callbacks :=
  ⟨rfl, rfl, rfl, rfl, rfl, rfl, rfl, rfl⟩

/-- Witness for `reset_state` at the concrete state `c5s`. -/
theorem reset_state_witness :
    c5s.path_group ≠ [] ∧
    (reset c5s).event_markers = c5s.event_markers ∧
    (reset c5s).timer = { val := 0, running := false } := by
  have h := reset_state c5s (by decide)
  exact ⟨by decide, h.2.2.2.2.2.1, h.2.1⟩

/-- C6 (counterexample to the claim as stated): the pending marker list is
not shared across instances.  In `c6w2` both instances have transitioned
into segment 1, each holding its own instance-level copy of the marker
list `[mZ]`.  Instance 0's next `sample()` call consumes `mZ` (the trace
shows callback 7 firing), yet instance 1's pending view still contains
`mZ` — the consumption is invisible to the other instance. -/
theorem marker_consumption_not_shared :
    readMarkers c6w2 0 = [mZ] ∧
    readMarkers c6w2 1 = [mZ] ∧
    c6r.2.2 = [Call.marker 7 mZ] ∧
    readMarkers c6r.1 0 = [] ∧
    readMarkers c6r.1 1 = [mZ] ∧
    readMarkers c6r.1 0 ≠ readMarkers c6r.1 1 := by decide

/-- C6 (amended): the event-callback dict and the stop-event-callback list
are class-level state shared by all instances: a registration through `on`
or `on_stop` on any instance is a mutation of the one class table every
instance reads, every instance sees the same table, and `reset()` leaves
the class tables (and so all bindings) untouched.  The pending marker
list, by contrast, is rebound per instance on segment transitions (see
`marker_consumption_not_shared`). -/
theorem callback_tables_shared (w : World) (i j : ℕ) (name : EventName)
    (cb : Callback) :
    readCallbacks (world_on_event w i name cb) j =
      dictSet (readCallbacks w j) name cb ∧
    (world_on_stop w i cb).cls.stop_event_callbacks =
      w.cls.stop_event_callbacks ++ [cb] ∧
    readCallbacks w i = readCallbacks w j ∧
    (world_reset w i).cls = w.cls :=
  ⟨rfl, rfl, rfl, rfl⟩

/-- C7: once the exhausted flag is set, any number of further `sample()`
calls each return the identical `None` sentinel. -/
theorem sample_after_exhaustion (s : Traverser) (n : ℕ)
    (h : s.paths_traversed = true) :
    sampleOutputs n s = List.replicate n none := by
  induction n with
  | zero => rfl
  | succ k ih => simp [sampleOutputs, sample_of_traversed h, ih, List.replicate_succ]

/-- Witness for `sample_after_exhaustion` at the concrete state `c7s`. -/
theorem sample_after_exhaustion_witness :
    c7s.paths_traversed = true ∧ sampleOutputs 3 c7s = List.replicate 3 none :=
  ⟨rfl, sample_after_exhaustion c7s 3 rfl⟩

/-- C8: constructing a traverser over an empty segment store fails —
`path_group[0]` raises `IndexError` inside `__init__` — so no instance, and
hence no `sample()` call, can ever come from an empty store, whatever the
pre-existing class tables are. -/
theorem init_empty_group_errors (ec : List (EventName × Callback))
    (sc : List Callback) (em : List EventMarker) :
    pathTraverserInit [] ec sc em = Except.error InitErr.indexError := rfl

/-- C9: `reset()` is idempotent — two consecutive `reset()` calls followed
by any tick sequence produce the same final state and the same observable
trace (returned values and dispatched callbacks) as a single `reset()`
followed by the same sequence. -/
theorem reset_idempotent_trace (s : Traverser) (ds : List ℚ) :
    runTicks ds (reset (reset s)) = runTicks ds (reset s) := by
  rw [reset_reset]

/-- C10: `sample()` dispatches at most one event marker per call: every
marker call in the trace is for the head of the pending list, and only when
its trigger time is ≤ the clock reading; on an empty pending list
`get_new_event_marker` returns `None` with the state unchanged (no
out-of-bounds access). -/
theorem at_most_head_marker (s : Traverser) :
    (s.event_markers = [] → get_new_event_marker s = (none, s)) ∧
    ∀ cb m, Call.marker cb m ∈ (sample s).2.2 →
      s.event_markers.head? = some m ∧ m.time ≤ s.timer.val := by
  constructor
  · intro he
    simp [get_new_event_marker, he]
  · intro cb m h
    by_cases hpt : s.paths_traversed
    · rw [sample_of_traversed hpt] at h
      cases h
    · have hs : sample s = sampleActive s := by
        simp [sample, hpt]
      rw [hs] at h
      simp only [sampleActive] at h
      rcases List.mem_append.mp h with h1 | h2
      · unfold markerStep get_new_event_marker at h1
        cases hm : s.event_markers with
        | nil =>
          rw [hm] at h1
          cases h1
        | cons m0 rest =>
          rw [hm] at h1
          by_cases hdue : m0.time ≤ s.timer.val
          · simp only [hdue, if_true] at h1
            obtain ⟨cb1, hc⟩ := dispatchNames_calls_marker m0 h1
            obtain ⟨hcb, hmm⟩ := Call.marker.inj hc
            subst hmm
            exact ⟨rfl, hdue⟩
          · simp only [hdue, if_false] at h1
            cases h1
      · unfold stopStep at h2
        by_cases hcr : (currentPath s).totalTime < s.timer.val
        · simp only [hcr, if_true, List.mem_map] at h2
          obtain ⟨x, _, he⟩ := h2
          cases he
        · simp only [hcr, if_false] at h2
          cases h2

/-- Witness for `at_most_head_marker` at the concrete state `c10s`. -/
theorem at_most_head_marker_witness :
    c10s.event_markers.head? = some mA ∧ mA.time ≤ c10s.timer.val :=
  (at_most_head_marker c10s).2 7 mA (by decide)

end Frc2023
